import Mathlib

/-!
Verification of the quantum-honeypot simulation (`quantum_honeypot.py`).

The development shallowly embeds the program's core: the model class
`QuantumHoneypotModel` (a quantum "cell" that collapses to a binary value on
the first measurement or intrusion), the `TimelineCanvas` data state (two
`deque(maxlen=max_points)` collections of sample times/values plus an
unbounded list of intrusion markers), and the `MainWindow` event handlers
(`on_measure`, `on_intrusion`, `on_reset`, `on_auto_changed`, `_ui_tick`)
together with the two `QTimer`s and the interval spin box.

Randomness (`random.choice`) is modelled as two explicit streams of drawn
values together with the position consumed so far, so that "no new random
draw" is expressible as "the stream position does not advance".  The
monotonic wall clock (`time.time() - start_time`) is modelled by passing the
current elapsed time to each handler.  Matplotlib drawing and Qt widget
rendering are pure view output and carry no model state; they are omitted.
Python `float` timestamps (rounded to hundredths of a second) are modelled
as integers: only their ordering and equality matter here.
-/

namespace QuantumHoneypot

/-- The four abstract pre-measurement labels, `QSTATES` in the source. -/
inductive QState
  | ket0
  | ket1
  | ketPlus
  | ketMinus
deriving DecidableEq

/-- The two measurement outcome strings, `MEASURE_OUTCOMES = ["0", "1"]`. -/
inductive Outcome
  | o0
  | o1
deriving DecidableEq

/-- Python `int(...)` applied to an outcome string: `int("0") = 0`, `int("1") = 1`. -/
def intOutcome : Outcome → Nat
  | .o0 => 0
  | .o1 => 1

/-- Elapsed time in hundredths of a second (`round(time.time() - start, 2)`). -/
abbrev TimeVal := Int

/-- A value stored in the canvas collections: a number, or `np.nan` for unknown. -/
inductive NVal
  | num (n : Nat)
  | nan
deriving DecidableEq

/-- The random source: the streams of values that successive `random.choice`
calls on `MEASURE_OUTCOMES` and on `QSTATES` return. -/
structure RandSrc where
  outcomes : Nat → Outcome
  states : Nat → QState

/-- Fields of the Python class `QuantumHoneypotModel`.  `time` is set to `0.0`
in `reset` and never touched again. -/
structure QuantumHoneypotModel where
  quantum_state : QState
  collapsed : Bool
  collapsed_value : Option Outcome
  time : Int
deriving DecidableEq

/-- A model together with the positions consumed from the two random streams. -/
structure Sim where
  model : QuantumHoneypotModel
  oIdx : Nat
  sIdx : Nat
deriving DecidableEq

/-- `QuantumHoneypotModel.reset`: fresh random pre-measurement state,
`collapsed = False`, `collapsed_value = None`, `time = 0.0`. -/
def resetS (src : RandSrc) (s : Sim) : Sim :=
  { model := { quantum_state := src.states s.sIdx
               collapsed := false
               collapsed_value := none
               time := 0 }
    oIdx := s.oIdx
    sIdx := s.sIdx + 1 }

/-- `QuantumHoneypotModel.measure`: if not collapsed, draw a random outcome,
store it, set `collapsed`, and return it; otherwise return the stored value. -/
def measureS (src : RandSrc) (s : Sim) : Sim × Option Outcome :=
  if !s.model.collapsed then
    let v := src.outcomes s.oIdx
    ({ s with
        model := { s.model with collapsed_value := some v, collapsed := true }
        oIdx := s.oIdx + 1 },
     some v)
  else
    (s, s.model.collapsed_value)

/-- `QuantumHoneypotModel.intrusion_attempt`: if not collapsed, call `measure`
and report `(True, outcome)`; otherwise `(False, collapsed_value)`. -/
def intrusionS (src : RandSrc) (s : Sim) : Sim × Bool × Option Outcome :=
  if !s.model.collapsed then
    let r := measureS src s
    (r.1, true, r.2)
  else
    (s, false, s.model.collapsed_value)

/-- The two collapse-inducing operations on one cell. -/
inductive CellOp
  | measure
  | intrude
deriving DecidableEq

/-- What one call returned: `measure` returns a value, `intrusion_attempt`
returns a flag and a value. -/
inductive OpOut
  | mOut (v : Option Outcome)
  | iOut (caused : Bool) (v : Option Outcome)
deriving DecidableEq

/-- The value component of a call's return. -/
def OpOut.value : OpOut → Option Outcome
  | .mOut v => v
  | .iOut _ v => v

/-- One `measure` / `intrusion_attempt` call on the model. -/
def stepCell (src : RandSrc) (op : CellOp) (s : Sim) : Sim × OpOut :=
  match op with
  | .measure => let r := measureS src s; (r.1, .mOut r.2)
  | .intrude => let r := intrusionS src s; (r.1, .iOut r.2.1 r.2.2)

/-- Run a sequence of calls, collecting every return value. -/
def runTrace (src : RandSrc) (ops : List CellOp) (s : Sim) : Sim × List OpOut :=
  match ops with
  | [] => (s, [])
  | op :: rest =>
      let r := stepCell src op s
      let r2 := runTrace src rest r.1
      (r2.1, r.2 :: r2.2)

/-- The return of a call made after the cell has collapsed to `v`. -/
def outAfter (op : CellOp) (v : Outcome) : OpOut :=
  match op with
  | .measure => .mOut (some v)
  | .intrude => .iOut false (some v)

/-- All cell operations, including reset. -/
inductive FullOp
  | measure
  | intrude
  | reset
deriving DecidableEq

/-- State transition of one cell operation (return values dropped). -/
def stepFull (src : RandSrc) (op : FullOp) (s : Sim) : Sim :=
  match op with
  | .measure => (measureS src s).1
  | .intrude => (intrusionS src s).1
  | .reset => resetS src s

/-- Run a sequence of cell operations. -/
def runFull (src : RandSrc) (ops : List FullOp) (s : Sim) : Sim :=
  match ops with
  | [] => s
  | op :: rest => runFull src rest (stepFull src op s)

/-- A `Sim` whose model fields are about to be overwritten by `reset` —
`__init__` consists of a single call to `reset`. -/
def blankSim : Sim :=
  { model := { quantum_state := .ket0, collapsed := false
               collapsed_value := none, time := 0 }
    oIdx := 0
    sIdx := 0 }

/-- `QuantumHoneypotModel.__init__`: just calls `reset`. -/
def initS (src : RandSrc) : Sim := resetS src blankSim

/-- The cell invariant: `collapsed_value` is non-`None` iff `collapsed`. -/
def cellInv (s : Sim) : Prop :=
  s.model.collapsed_value.isSome = s.model.collapsed

/-- A fixed random source used to evaluate the development on concrete runs. -/
def srcA : RandSrc :=
  { outcomes := fun _ => .o0, states := fun _ => .ket0 }

/-- A concrete un-collapsed model state. -/
def simFresh : Sim :=
  { model := { quantum_state := .ket1, collapsed := false
               collapsed_value := none, time := 0 }
    oIdx := 0
    sIdx := 0 }

/-- A concrete collapsed model state (collapsed to `"1"`). -/
def simColl : Sim :=
  { model := { quantum_state := .ket1, collapsed := true
               collapsed_value := some .o1, time := 0 }
    oIdx := 3
    sIdx := 1 }

/-! ### Cell lemmas -/

/-- A call on a collapsed cell returns the stored value and changes nothing. -/
theorem stepCell_of_collapsed (src : RandSrc) (op : CellOp) (s : Sim) (v : Outcome)
    (h : s.model.collapsed = true) (hv : s.model.collapsed_value = some v) :
    stepCell src op s = (s, outAfter op v) := by
  cases op <;> simp [stepCell, measureS, intrusionS, outAfter, h, hv]

/-- Every call after a collapse returns the collapsed value and leaves the
state (including the random-stream position) unchanged. -/
theorem runTrace_of_collapsed (src : RandSrc) (ops : List CellOp) (s : Sim) (v : Outcome)
    (h : s.model.collapsed = true) (hv : s.model.collapsed_value = some v) :
    runTrace src ops s = (s, ops.map (fun op => outAfter op v)) := by
  induction ops with
  | nil => simp [runTrace]
  | cons op rest ih => simp [runTrace, stepCell_of_collapsed src op s v h hv, ih]

/-- C1.  For every sequence of `measure`/`intrusion_attempt` calls on one cell
between its creation/reset and the next reset, `collapsed_value` is assigned
by the first collapse-inducing call (storing the next value of the random
stream); every subsequent call returns that identical value, with no new
random draw (`oIdx` does not advance) and no further state change. -/
theorem C1_measure_idempotent_after_first (src : RandSrc) (s : Sim)
    (op0 : CellOp) (ops : List CellOp) :
    (stepCell src op0 (resetS src s)).1.model.collapsed_value
        = some (src.outcomes s.oIdx) ∧
    (stepCell src op0 (resetS src s)).2.value = some (src.outcomes s.oIdx) ∧
    (stepCell src op0 (resetS src s)).1.oIdx = s.oIdx + 1 ∧
    runTrace src ops (stepCell src op0 (resetS src s)).1 =
      ((stepCell src op0 (resetS src s)).1,
       ops.map (fun op => outAfter op (src.outcomes s.oIdx))) := by
  have hstep : stepCell src op0 (resetS src s) =
      ({ model := { quantum_state := src.states s.sIdx
                    collapsed := true
                    collapsed_value := some (src.outcomes s.oIdx)
                    time := 0 }
         oIdx := s.oIdx + 1
         sIdx := s.sIdx + 1 },
       match op0 with
       | .measure => .mOut (some (src.outcomes s.oIdx))
       | .intrude => .iOut true (some (src.outcomes s.oIdx))) := by
    cases op0 <;> simp [stepCell, measureS, intrusionS, resetS]
  rw [hstep]
  refine ⟨rfl, ?_, rfl, ?_⟩
  · cases op0 <;> rfl
  · exact runTrace_of_collapsed src ops _ (src.outcomes s.oIdx) rfl rfl

/-- C2.  `intrusion_attempt` on a non-collapsed cell performs exactly the
`measure` transition — it draws the next random binary value, sets
`collapsed`, stores the value — and returns `(True, value)`; on a collapsed
cell it returns `(False, collapsed_value)` and leaves the state unchanged. -/
theorem C2_intrusion_attempt_behavior (src : RandSrc) (s : Sim) :
    (s.model.collapsed = false →
      intrusionS src s =
        ({ model := { quantum_state := s.model.quantum_state
                      collapsed := true
                      collapsed_value := some (src.outcomes s.oIdx)
                      time := s.model.time }
           oIdx := s.oIdx + 1
           sIdx := s.sIdx },
         true, some (src.outcomes s.oIdx)) ∧
      intrusionS src s = ((measureS src s).1, true, (measureS src s).2)) ∧
    (s.model.collapsed = true →
      intrusionS src s = (s, false, s.model.collapsed_value)) := by
  constructor
  · intro h
    constructor
    · simp [intrusionS, measureS, h]
    · simp [intrusionS, measureS, h]
  · intro h
    simp [intrusionS, h]

/-- Witness for C2 at concrete inputs: one non-collapsed cell, one collapsed. -/
theorem C2_intrusion_attempt_behavior_witness :
    simFresh.model.collapsed = false ∧
    intrusionS srcA simFresh = ((measureS srcA simFresh).1, true, (measureS srcA simFresh).2) ∧
    simColl.model.collapsed = true ∧
    intrusionS srcA simColl = (simColl, false, some .o1) :=
  ⟨rfl,
   ((C2_intrusion_attempt_behavior srcA simFresh).1 rfl).2,
   rfl,
   (C2_intrusion_attempt_behavior srcA simColl).2 rfl⟩

/-- The cell invariant is preserved by every operation. -/
theorem cellInv_stepFull (src : RandSrc) (op : FullOp) (s : Sim)
    (h : cellInv s) : cellInv (stepFull src op s) := by
  cases op with
  | measure =>
      by_cases hc : s.model.collapsed
      · simpa [stepFull, measureS, hc] using h
      · simp [stepFull, measureS, hc, cellInv]
  | intrude =>
      by_cases hc : s.model.collapsed
      · simpa [stepFull, intrusionS, hc] using h
      · simp [stepFull, intrusionS, measureS, hc, cellInv]
  | reset => simp [stepFull, resetS, cellInv]

/-- The cell invariant holds in every state reachable from a given one. -/
theorem cellInv_runFull (src : RandSrc) (ops : List FullOp) (s : Sim)
    (h : cellInv s) : cellInv (runFull src ops s) := by
  induction ops generalizing s with
  | nil => simpa [runFull]
  | cons op rest ih => exact ih _ (cellInv_stepFull src op s h)

/-- C3.  In every reachable state, `collapsed_value` is non-`None` iff
`collapsed`; no operation other than `reset` turns `collapsed` off; and
`reset` yields a fresh random `quantum_state` with `collapsed = False` and
`collapsed_value = None`. -/
theorem C3_collapse_invariant (src : RandSrc) (ops : List FullOp) :
    cellInv (runFull src ops (initS src)) ∧
    (∀ s : Sim, ∀ op : FullOp, op ≠ FullOp.reset → s.model.collapsed = true →
        (stepFull src op s).model.collapsed = true) ∧
    (∀ s : Sim, (stepFull src FullOp.reset s).model =
        { quantum_state := src.states s.sIdx, collapsed := false
          collapsed_value := none, time := 0 }) := by
  refine ⟨cellInv_runFull src ops _ rfl, ?_, fun s => rfl⟩
  intro s op hop hc
  cases op with
  | measure => simp [stepFull, measureS, hc]
  | intrude => simp [stepFull, intrusionS, hc]
  | reset => exact absurd rfl hop

/-- Witness for C3 at concrete inputs. -/
theorem C3_collapse_invariant_witness :
    cellInv (runFull srcA [FullOp.measure] (initS srcA)) ∧
    FullOp.measure ≠ FullOp.reset ∧
    simColl.model.collapsed = true ∧
    (stepFull srcA FullOp.measure simColl).model.collapsed = true ∧
    (stepFull srcA FullOp.reset simColl).model =
      { quantum_state := .ket0, collapsed := false
        collapsed_value := none, time := 0 } :=
  ⟨(C3_collapse_invariant srcA [FullOp.measure]).1,
   by decide,
   rfl,
   (C3_collapse_invariant srcA []).2.1 simColl FullOp.measure (by decide) rfl,
   (C3_collapse_invariant srcA []).2.2 simColl⟩

/-! ### Timeline canvas -/

/-- `deque(maxlen=m).append(x)`: append and keep only the last `m` elements. -/
def dequeAppend (m : Nat) (xs : List α) (x : α) : List α :=
  let ys := xs ++ [x]
  ys.drop (ys.length - m)

/-- Data state of the Python class `TimelineCanvas`: two
`deque(maxlen=max_points)` collections for sample times and values, and an
unbounded Python list of `(t, value)` intrusion markers.  Axes/figure state
is pure drawing output and carries no model data. -/
structure TimelineCanvas where
  max_points : Nat
  times : List TimeVal
  values : List NVal
  intrusion_times : List (TimeVal × NVal)
deriving DecidableEq

/-- `TimelineCanvas.clear`: fresh empty deques (same `maxlen`) and an empty
marker list. -/
def TimelineCanvas.clear (c : TimelineCanvas) : TimelineCanvas :=
  { c with times := [], values := [], intrusion_times := [] }

/-- `TimelineCanvas.append`: push `(t, value)` onto the two bounded deques. -/
def TimelineCanvas.append (c : TimelineCanvas) (t : TimeVal) (v : NVal) :
    TimelineCanvas :=
  { c with
      times := dequeAppend c.max_points c.times t
      values := dequeAppend c.max_points c.values v }

/-- `TimelineCanvas.mark_intrusion`: push `(t, value_at_t)` onto the marker list. -/
def TimelineCanvas.mark_intrusion (c : TimelineCanvas) (t : TimeVal) (v : NVal) :
    TimelineCanvas :=
  { c with intrusion_times := c.intrusion_times ++ [(t, v)] }

/-- `TimelineCanvas.__init__(max_points)`: store `max_points`, then `clear`. -/
def emptyCanvas (m : Nat) : TimelineCanvas :=
  TimelineCanvas.clear { max_points := m, times := [], values := [], intrusion_times := [] }

/-- A whole sequence of `append` calls. -/
def appendSamples (c : TimelineCanvas) (l : List (TimeVal × NVal)) : TimelineCanvas :=
  l.foldl (fun c p => c.append p.1 p.2) c

/-- A whole sequence of `mark_intrusion` calls. -/
def markSamples (c : TimelineCanvas) (l : List (TimeVal × NVal)) : TimelineCanvas :=
  l.foldl (fun c p => c.mark_intrusion p.1 p.2) c

/-- The last `m` elements of a list. -/
def lastN (m : Nat) (l : List α) : List α := l.drop (l.length - m)

theorem dequeAppend_length_le (m : Nat) (xs : List α) (x : α) :
    (dequeAppend m xs x).length ≤ m := by
  simp only [dequeAppend, List.length_drop]
  omega

/-- One bounded append on a list holding the last `m` elements of `ys` yields
the last `m` elements of `ys ++ [x]`. -/
theorem dequeAppend_lastN (m : Nat) (ys : List α) (x : α) :
    dequeAppend m (lastN m ys) x = lastN m (ys ++ [x]) := by
  show (ys.drop (ys.length - m) ++ [x]).drop
      ((ys.drop (ys.length - m) ++ [x]).length - m) =
    (ys ++ [x]).drop ((ys ++ [x]).length - m)
  rw [← List.drop_append_of_le_length (Nat.sub_le ys.length m), List.drop_drop]
  congr 1
  simp only [List.length_drop, List.length_append, List.length_cons, List.length_nil]
  omega

/-- Folding bounded appends keeps exactly the last `m` elements. -/
theorem foldl_dequeAppend_lastN (m : Nat) (l ys : List α) :
    l.foldl (dequeAppend m) (lastN m ys) = lastN m (ys ++ l) := by
  induction l generalizing ys with
  | nil => simp
  | cons x xs ih =>
      rw [List.foldl_cons, dequeAppend_lastN, ih]
      simp

theorem foldl_dequeAppend_nil (m : Nat) (l : List α) :
    l.foldl (dequeAppend m) [] = l.drop (l.length - m) := by
  have h : ([] : List α) = lastN m [] := by simp [lastN]
  rw [h, foldl_dequeAppend_lastN]
  simp [lastN]

/-- `appendSamples` acts componentwise on the two deques and does not touch
`max_points` or the marker list. -/
theorem appendSamples_fields (c : TimelineCanvas) (l : List (TimeVal × NVal)) :
    (appendSamples c l).times = (l.map Prod.fst).foldl (dequeAppend c.max_points) c.times ∧
    (appendSamples c l).values = (l.map Prod.snd).foldl (dequeAppend c.max_points) c.values ∧
    (appendSamples c l).max_points = c.max_points ∧
    (appendSamples c l).intrusion_times = c.intrusion_times := by
  induction l generalizing c with
  | nil => simp [appendSamples]
  | cons p rest ih =>
      have := ih (c.append p.1 p.2)
      simpa [appendSamples, TimelineCanvas.append] using this

/-- C5.  The sample deques never exceed `max_points` after any `append`, from
any starting state; and appending `m + k` samples with strictly increasing
timestamps to a cleared canvas of capacity `m` retains exactly the last `m`
of them, in timestamp order (the first `k` are evicted). -/
theorem C5_bounded_fifo (c : TimelineCanvas) (t : TimeVal) (v : NVal)
    (m k : Nat) (l : List (TimeVal × NVal))
    (hlen : l.length = m + k)
    (hsorted : (l.map Prod.fst).Pairwise (· < ·)) :
    (c.append t v).times.length ≤ c.max_points ∧
    (c.append t v).values.length ≤ c.max_points ∧
    (appendSamples (emptyCanvas m) l).times = (l.map Prod.fst).drop k ∧
    (appendSamples (emptyCanvas m) l).values = (l.map Prod.snd).drop k ∧
    (appendSamples (emptyCanvas m) l).times.length = m ∧
    (appendSamples (emptyCanvas m) l).times.Pairwise (· < ·) := by
  obtain ⟨ht, hv, _, _⟩ := appendSamples_fields (emptyCanvas m) l
  have hdk : (l.map Prod.fst).length - m = k := by
    simp [hlen]
  have htimes : (appendSamples (emptyCanvas m) l).times = (l.map Prod.fst).drop k := by
    rw [ht]
    show (l.map Prod.fst).foldl (dequeAppend m) [] = (l.map Prod.fst).drop k
    rw [foldl_dequeAppend_nil, hdk]
  have hvalues : (appendSamples (emptyCanvas m) l).values = (l.map Prod.snd).drop k := by
    rw [hv]
    show (l.map Prod.snd).foldl (dequeAppend m) [] = (l.map Prod.snd).drop k
    rw [foldl_dequeAppend_nil]
    congr 1
    simp [hlen]
  refine ⟨dequeAppend_length_le _ _ _, dequeAppend_length_le _ _ _,
    htimes, hvalues, ?_, ?_⟩
  · rw [htimes]
    simp [hlen]
  · rw [htimes]
    exact hsorted.sublist (List.drop_sublist k _)

/-- Witness for C5: capacity 2, three samples, the oldest is evicted. -/
theorem C5_bounded_fifo_witness :
    [((1 : TimeVal), NVal.nan), (2, NVal.num 0), (3, NVal.num 1)].length = 2 + 1 ∧
    ([((1 : TimeVal), NVal.nan), (2, NVal.num 0), (3, NVal.num 1)].map Prod.fst).Pairwise
      (· < ·) ∧
    ((emptyCanvas 2).append 1 NVal.nan).times.length ≤ (emptyCanvas 2).max_points ∧
    (appendSamples (emptyCanvas 2)
        [((1 : TimeVal), NVal.nan), (2, NVal.num 0), (3, NVal.num 1)]).times = [2, 3] :=
  ⟨rfl, by decide,
   (C5_bounded_fifo (emptyCanvas 2) 1 NVal.nan 2 1
      [((1 : TimeVal), NVal.nan), (2, NVal.num 0), (3, NVal.num 1)] rfl (by decide)).1,
   by
     have h := (C5_bounded_fifo (emptyCanvas 2) 1 NVal.nan 2 1
        [((1 : TimeVal), NVal.nan), (2, NVal.num 0), (3, NVal.num 1)] rfl
        (by decide)).2.2.1
     simpa using h⟩

/-- `markSamples` only extends the marker list. -/
theorem markSamples_fields (c : TimelineCanvas) (l : List (TimeVal × NVal)) :
    (markSamples c l).times = c.times ∧
    (markSamples c l).values = c.values ∧
    (markSamples c l).max_points = c.max_points ∧
    (markSamples c l).intrusion_times = c.intrusion_times ++ l := by
  induction l generalizing c with
  | nil => simp [markSamples]
  | cons p rest ih =>
      have := ih (c.mark_intrusion p.1 p.2)
      simpa [markSamples, TimelineCanvas.mark_intrusion] using this

/-- C6.  `mark_intrusion` leaves the sample deques and their capacity
untouched and appends exactly one marker; markers are never evicted — after
any number of `mark_intrusion` calls since the last `clear`, all of them are
retained in order. -/
theorem C6_markers_unbounded_frame (c : TimelineCanvas) (t : TimeVal) (v : NVal)
    (ms : List (TimeVal × NVal)) :
    (c.mark_intrusion t v).times = c.times ∧
    (c.mark_intrusion t v).values = c.values ∧
    (c.mark_intrusion t v).max_points = c.max_points ∧
    (c.mark_intrusion t v).intrusion_times = c.intrusion_times ++ [(t, v)] ∧
    (markSamples c.clear ms).intrusion_times = ms ∧
    (markSamples c.clear ms).intrusion_times.length = ms.length := by
  obtain ⟨_, _, _, hm⟩ := markSamples_fields c.clear ms
  refine ⟨rfl, rfl, rfl, rfl, ?_, ?_⟩
  · simpa [TimelineCanvas.clear] using hm
  · rw [hm]
    simp [TimelineCanvas.clear]

/-! ### Main window -/

/-- The text of `state_label`, as a symbolic value. -/
inductive StateLabel
  | preMeasurement (q : QState)
  | collapsedTo (v : Outcome)
  | collapsedByIntrusion (v : Outcome)
deriving DecidableEq

/-- The distinct messages written to the security log. -/
inductive LogEvent
  | systemStart (q : QState)
  | measurementPerformed (v : Outcome)
  | intrusionCollapse (v : Outcome)
  | intrusionPostCollapse (v : Outcome)
  | systemReset
  | autoEnabled (seconds : Int)
  | autoDisabled
deriving DecidableEq

/-- State of the `MainWindow`: the model (with random-stream positions), the
canvas data, the label, the log, a count of `QMessageBox.warning` alerts, the
two `QTimer`s (`ui_timer` for the 500 ms sampling tick, `auto_timer` for
auto-intrusion), and the interval spin box value. -/
structure MainWindow where
  sim : Sim
  canvas : TimelineCanvas
  state_label : StateLabel
  log : List LogEvent
  alerts : Nat
  ui_timer_active : Bool
  ui_timer_interval_ms : Int
  auto_timer_active : Bool
  auto_timer_interval_ms : Int
  interval_spin : Int
deriving DecidableEq

/-- `MainWindow.__init__`: fresh model, canvas of capacity 400 (cleared by
its constructor), spin box at 5, `ui_timer` started at 500 ms, `auto_timer`
created but not started (interval 0), one initial `nan` sample at elapsed
time 0, and the startup log line. -/
def initW (src : RandSrc) : MainWindow :=
  let s := initS src
  { sim := s
    canvas := (emptyCanvas 400).append 0 NVal.nan
    state_label := .preMeasurement s.model.quantum_state
    log := [LogEvent.systemStart s.model.quantum_state]
    alerts := 0
    ui_timer_active := true
    ui_timer_interval_ms := 500
    auto_timer_active := false
    auto_timer_interval_ms := 0
    interval_spin := 5 }

/-- `MainWindow.on_measure` at elapsed time `t`.  `int(outcome)` raises a
`TypeError` when `outcome` is `None`, modelled as `none`. -/
def on_measure (src : RandSrc) (t : TimeVal) (w : MainWindow) : Option MainWindow :=
  let r := measureS src w.sim
  match r.2 with
  | none => none
  | some v =>
      some { w with
        sim := r.1
        state_label := .collapsedTo v
        log := w.log ++ [LogEvent.measurementPerformed v]
        canvas := w.canvas.append t (NVal.num (intOutcome v)) }

/-- `MainWindow.on_intrusion` at elapsed time `t`: delegate to
`intrusion_attempt`; on a new collapse, set the label, log the collapse,
mark an intrusion at `t` and append a sample; otherwise log the
post-collapse intrusion and only mark; in both branches pop the
`QMessageBox.warning` alert.  `int(outcome)` on `None` is the `none` case. -/
def on_intrusion (src : RandSrc) (t : TimeVal) (w : MainWindow) : Option MainWindow :=
  let r := intrusionS src w.sim
  let measured_now := r.2.1
  match r.2.2 with
  | none => none
  | some v =>
      let w1 :=
        if measured_now then
          { w with
              sim := r.1
              state_label := .collapsedByIntrusion v
              log := w.log ++ [LogEvent.intrusionCollapse v]
              canvas := (w.canvas.mark_intrusion t (NVal.num (intOutcome v))).append t
                          (NVal.num (intOutcome v)) }
        else
          { w with
              sim := r.1
              log := w.log ++ [LogEvent.intrusionPostCollapse v]
              canvas := w.canvas.mark_intrusion t (NVal.num (intOutcome v)) }
      some { w1 with alerts := w1.alerts + 1 }

/-- `MainWindow.on_reset` at elapsed time `t`: reset the model, set the
label, log, clear the canvas, append one `nan` sample at `t`. -/
def on_reset (src : RandSrc) (t : TimeVal) (w : MainWindow) : MainWindow :=
  let s := resetS src w.sim
  { w with
      sim := s
      state_label := .preMeasurement s.model.quantum_state
      log := w.log ++ [LogEvent.systemReset]
      canvas := w.canvas.clear.append t NVal.nan }

/-- `MainWindow.on_auto_changed`: on the checked state, start the auto timer
with the spin box value in milliseconds (`QTimer.start(i)` stores the new
interval and (re)starts); otherwise stop it.  `checked` stands for the
source's comparison of the signal payload with `Qt.CheckState.Checked`. -/
def on_auto_changed (w : MainWindow) (checked : Bool) : MainWindow :=
  if checked then
    { w with
        auto_timer_active := true
        auto_timer_interval_ms := w.interval_spin * 1000
        log := w.log ++ [LogEvent.autoEnabled w.interval_spin] }
  else
    { w with
        auto_timer_active := false
        log := w.log ++ [LogEvent.autoDisabled] }

/-- The user assigns `v` to the interval spin box.  The `QSpinBox` is
configured with `setRange(1, 60)` (source line 161), so Qt clamps the stored
value into `1..60`; no `valueChanged` handler is connected, so nothing else
in the window reacts. -/
def set_interval_spin (w : MainWindow) (v : Int) : MainWindow :=
  { w with interval_spin := max 1 (min 60 v) }

/-- `MainWindow._ui_tick` at elapsed time `t`: append the collapsed value if
collapsed (`int(None)` would raise, the `none` case), else a `nan` sample. -/
def ui_tick (t : TimeVal) (w : MainWindow) : Option MainWindow :=
  if w.sim.model.collapsed then
    match w.sim.model.collapsed_value with
    | none => none
    | some v => some { w with canvas := w.canvas.append t (NVal.num (intOutcome v)) }
  else
    some { w with canvas := w.canvas.append t NVal.nan }

/-- The window-level events, each carrying the data its handler reads from
the environment (the elapsed-time clock, the check box, the spin box). -/
inductive WOp
  | measure (t : TimeVal)
  | intrude (t : TimeVal)
  | resetW (t : TimeVal)
  | tick (t : TimeVal)
  | autoChanged (checked : Bool)
  | setInterval (v : Int)

/-- Dispatch one window event. -/
def stepW (src : RandSrc) (op : WOp) (w : MainWindow) : Option MainWindow :=
  match op with
  | .measure t => on_measure src t w
  | .intrude t => on_intrusion src t w
  | .resetW t => some (on_reset src t w)
  | .tick t => ui_tick t w
  | .autoChanged b => some (on_auto_changed w b)
  | .setInterval v => some (set_interval_spin w v)

/-- Run a sequence of window events; `none` once any handler raises. -/
def runW (src : RandSrc) (ops : List WOp) (w : MainWindow) : Option MainWindow :=
  match ops with
  | [] => some w
  | op :: rest =>
      match stepW src op w with
      | none => none
      | some w' => runW src rest w'

/-! ### Window-level claims -/

/-- `on_intrusion` on an already-collapsed cell: log, one marker with the
stored value, alert; samples and model unchanged. -/
theorem on_intrusion_of_collapsed (src : RandSrc) (t : TimeVal) (w : MainWindow)
    (v : Outcome) (hc : w.sim.model.collapsed = true)
    (hv : w.sim.model.collapsed_value = some v) :
    on_intrusion src t w = some
      { w with
          log := w.log ++ [LogEvent.intrusionPostCollapse v]
          canvas := w.canvas.mark_intrusion t (NVal.num (intOutcome v))
          alerts := w.alerts + 1 } := by
  simp [on_intrusion, intrusionS, hc, hv]

/-- `on_intrusion` on a fresh cell: collapse via `measure`, label, log,
marker and sample with the drawn value, alert. -/
theorem on_intrusion_of_fresh (src : RandSrc) (t : TimeVal) (w : MainWindow)
    (hc : w.sim.model.collapsed = false) :
    on_intrusion src t w = some
      { w with
          sim := { model := { w.sim.model with
                              collapsed := true
                              collapsed_value := some (src.outcomes w.sim.oIdx) }
                   oIdx := w.sim.oIdx + 1
                   sIdx := w.sim.sIdx }
          state_label := .collapsedByIntrusion (src.outcomes w.sim.oIdx)
          log := w.log ++ [LogEvent.intrusionCollapse (src.outcomes w.sim.oIdx)]
          canvas := (w.canvas.mark_intrusion t
                      (NVal.num (intOutcome (src.outcomes w.sim.oIdx)))).append t
                      (NVal.num (intOutcome (src.outcomes w.sim.oIdx)))
          alerts := w.alerts + 1 } := by
  simp [on_intrusion, intrusionS, measureS, hc]

/-- C4.  `on_intrusion` always records exactly one intrusion marker at the
current elapsed time with a concrete binary value, and raises the alert; it
appends a sample exactly when the call caused a new collapse; and on an
already-collapsed cell the marker's value is the stored collapsed value, not
the unknown sentinel. -/
theorem C4_trigger_intrusion (src : RandSrc) (t : TimeVal) (w : MainWindow)
    (h : cellInv w.sim) :
    ∃ w', on_intrusion src t w = some w' ∧
      w'.alerts = w.alerts + 1 ∧
      (∃ b : Nat, (b = 0 ∨ b = 1) ∧
        w'.canvas.intrusion_times = w.canvas.intrusion_times ++ [(t, NVal.num b)]) ∧
      (w.sim.model.collapsed = false →
        w'.canvas.times = dequeAppend w.canvas.max_points w.canvas.times t ∧
        w'.canvas.values = dequeAppend w.canvas.max_points w.canvas.values
            (NVal.num (intOutcome (src.outcomes w.sim.oIdx)))) ∧
      (w.sim.model.collapsed = true →
        w'.canvas.times = w.canvas.times ∧
        w'.canvas.values = w.canvas.values ∧
        ∃ v : Outcome, w.sim.model.collapsed_value = some v ∧
          w'.canvas.intrusion_times =
            w.canvas.intrusion_times ++ [(t, NVal.num (intOutcome v))]) := by
  by_cases hc : w.sim.model.collapsed
  · have hv : ∃ v, w.sim.model.collapsed_value = some v := by
      rw [cellInv, hc] at h
      exact Option.isSome_iff_exists.mp h
    obtain ⟨v, hv⟩ := hv
    refine ⟨_, on_intrusion_of_collapsed src t w v hc hv, rfl,
      ⟨intOutcome v, by cases v <;> simp [intOutcome], rfl⟩, ?_, ?_⟩
    · intro hfalse
      rw [hc] at hfalse
      exact absurd hfalse (by simp)
    · exact fun _ => ⟨rfl, rfl, v, hv, rfl⟩
  · have hc' : w.sim.model.collapsed = false := by simpa using hc
    refine ⟨_, on_intrusion_of_fresh src t w hc', rfl,
      ⟨intOutcome (src.outcomes w.sim.oIdx),
        by cases src.outcomes w.sim.oIdx <;> simp [intOutcome], ?_⟩, ?_, ?_⟩
    · show ((w.canvas.mark_intrusion t _).append t _).intrusion_times =
        w.canvas.intrusion_times ++ [(t, _)]
      simp [TimelineCanvas.append, TimelineCanvas.mark_intrusion]
    · exact fun _ => ⟨rfl, rfl⟩
    · intro htrue
      rw [hc'] at htrue
      exact absurd htrue (by simp)

/-- A concrete window whose cell has already collapsed. -/
def winColl : MainWindow :=
  { sim := simColl
    canvas := emptyCanvas 400
    state_label := .collapsedTo .o1
    log := []
    alerts := 0
    ui_timer_active := true
    ui_timer_interval_ms := 500
    auto_timer_active := false
    auto_timer_interval_ms := 0
    interval_spin := 5 }

/-- Witness for C4 on a concrete collapsed window. -/
theorem C4_trigger_intrusion_witness :
    cellInv winColl.sim ∧
    (∃ w', on_intrusion srcA 7 winColl = some w' ∧
      w'.alerts = winColl.alerts + 1 ∧
      (∃ b : Nat, (b = 0 ∨ b = 1) ∧
        w'.canvas.intrusion_times = winColl.canvas.intrusion_times ++ [(7, NVal.num b)]) ∧
      (winColl.sim.model.collapsed = false →
        w'.canvas.times = dequeAppend winColl.canvas.max_points winColl.canvas.times 7 ∧
        w'.canvas.values = dequeAppend winColl.canvas.max_points winColl.canvas.values
            (NVal.num (intOutcome (srcA.outcomes winColl.sim.oIdx)))) ∧
      (winColl.sim.model.collapsed = true →
        w'.canvas.times = winColl.canvas.times ∧
        w'.canvas.values = winColl.canvas.values ∧
        ∃ v : Outcome, winColl.sim.model.collapsed_value = some v ∧
          w'.canvas.intrusion_times =
            winColl.canvas.intrusion_times ++ [(7, NVal.num (intOutcome v))])) :=
  ⟨rfl, C4_trigger_intrusion srcA 7 winColl rfl⟩

/-- C7.  `on_reset` yields a post-state whose cell has `collapsed = False`
with a fresh random pre-measurement state and no collapsed value; the
canvas's samples and markers are cleared; and the single sample recorded
right after the reset is the unknown sentinel at the current elapsed time. -/
theorem C7_reset_post_state (src : RandSrc) (t : TimeVal) (w : MainWindow)
    (h : 1 ≤ w.canvas.max_points) :
    (on_reset src t w).sim.model.collapsed = false ∧
    (on_reset src t w).sim.model.quantum_state = src.states w.sim.sIdx ∧
    (on_reset src t w).sim.model.collapsed_value = none ∧
    (on_reset src t w).canvas.intrusion_times = [] ∧
    (on_reset src t w).canvas.times = [t] ∧
    (on_reset src t w).canvas.values = [NVal.nan] ∧
    (on_reset src t w).log = w.log ++ [LogEvent.systemReset] := by
  have hd : ∀ (x : TimeVal), dequeAppend w.canvas.max_points ([] : List TimeVal) x = [x] := by
    intro x
    simp only [dequeAppend, List.nil_append, List.length_cons, List.length_nil]
    have : 1 - w.canvas.max_points = 0 := by omega
    rw [this, List.drop_zero]
  have hd' : dequeAppend w.canvas.max_points ([] : List NVal) NVal.nan = [NVal.nan] := by
    simp only [dequeAppend, List.nil_append, List.length_cons, List.length_nil]
    have : 1 - w.canvas.max_points = 0 := by omega
    rw [this, List.drop_zero]
  refine ⟨rfl, rfl, rfl, rfl, ?_, ?_, rfl⟩
  · show dequeAppend w.canvas.max_points ([] : List TimeVal) t = [t]
    exact hd t
  · exact hd'

/-- Witness for C7 on a concrete window. -/
theorem C7_reset_post_state_witness :
    1 ≤ winColl.canvas.max_points ∧
    (on_reset srcA 9 winColl).sim.model.collapsed = false ∧
    (on_reset srcA 9 winColl).canvas.times = [9] ∧
    (on_reset srcA 9 winColl).canvas.values = [NVal.nan] ∧
    (on_reset srcA 9 winColl).canvas.intrusion_times = [] :=
  ⟨by decide,
   (C7_reset_post_state srcA 9 winColl (by decide)).1,
   (C7_reset_post_state srcA 9 winColl (by decide)).2.2.2.2.1,
   (C7_reset_post_state srcA 9 winColl (by decide)).2.2.2.2.2.1,
   (C7_reset_post_state srcA 9 winColl (by decide)).2.2.2.1⟩

/-- C8 counterexample: assigning the out-of-range interval 100 does not fail —
the spin box silently clamps it to 60 and the rest of the window, including
the log, is untouched; no `InvalidConfiguration` condition exists. -/
theorem C8_counterexample_silent_clamp :
    (set_interval_spin (initW srcA) 100).interval_spin = 60 ∧
    set_interval_spin (initW srcA) 100 = { initW srcA with interval_spin := 60 } := by
  constructor <;> decide

/-- C8 (amended).  Out-of-range interval values are silently clamped into
`1..60` by the spin control; assignment is total, changes nothing but the
spin value, and reports no error condition. -/
theorem C8_interval_clamped (w : MainWindow) (v : Int) :
    1 ≤ (set_interval_spin w v).interval_spin ∧
    (set_interval_spin w v).interval_spin ≤ 60 ∧
    (60 < v → (set_interval_spin w v).interval_spin = 60) ∧
    (v < 1 → (set_interval_spin w v).interval_spin = 1) ∧
    (1 ≤ v → v ≤ 60 → (set_interval_spin w v).interval_spin = v) ∧
    (set_interval_spin w v).sim = w.sim ∧
    (set_interval_spin w v).canvas = w.canvas ∧
    (set_interval_spin w v).log = w.log ∧
    (set_interval_spin w v).auto_timer_active = w.auto_timer_active := by
  refine ⟨?_, ?_, ?_, ?_, ?_, rfl, rfl, rfl, rfl⟩ <;>
    · show _
      simp only [set_interval_spin]
      omega

/-- Witness for C8's amended claim at the concrete out-of-range input 100. -/
theorem C8_interval_clamped_witness :
    (60 : Int) < 100 ∧ (set_interval_spin (initW srcA) 100).interval_spin = 60 :=
  ⟨by decide, (C8_interval_clamped (initW srcA) 100).2.2.1 (by decide)⟩

/-- C9 counterexample: with auto-intrusion enabled at 5 s (timer period
5000 ms), changing the spin box to 10 leaves the auto timer running at
5000 ms — it is not restarted with the new period 10000 ms. -/
theorem C9_counterexample_no_restart :
    (on_auto_changed (initW srcA) true).auto_timer_active = true ∧
    (on_auto_changed (initW srcA) true).auto_timer_interval_ms = 5000 ∧
    (set_interval_spin (on_auto_changed (initW srcA) true) 10).interval_spin = 10 ∧
    (set_interval_spin (on_auto_changed (initW srcA) true) 10).auto_timer_active = true ∧
    (set_interval_spin (on_auto_changed (initW srcA) true) 10).auto_timer_interval_ms
      = 5000 ∧
    (5000 : Int) ≠ 10 * 1000 := by
  refine ⟨?_, ?_, ?_, ?_, ?_, ?_⟩ <;> decide

/-- C9 (amended).  Enabling or disabling auto-intrusion leaves the sampling
tick timer untouched; changing the spin box value does not stop, start or
re-period the auto-intrusion timer (no handler is connected to it) — the new
interval takes effect only when auto-intrusion is next enabled. -/
theorem C9_timer_frame (w : MainWindow) (b : Bool) (v : Int) :
    (on_auto_changed w b).ui_timer_active = w.ui_timer_active ∧
    (on_auto_changed w b).ui_timer_interval_ms = w.ui_timer_interval_ms ∧
    (set_interval_spin w v).auto_timer_active = w.auto_timer_active ∧
    (set_interval_spin w v).auto_timer_interval_ms = w.auto_timer_interval_ms ∧
    (set_interval_spin w v).ui_timer_active = w.ui_timer_active ∧
    (set_interval_spin w v).ui_timer_interval_ms = w.ui_timer_interval_ms ∧
    (on_auto_changed (set_interval_spin w v) true).auto_timer_active = true ∧
    (on_auto_changed (set_interval_spin w v) true).auto_timer_interval_ms
      = max 1 (min 60 v) * 1000 := by
  cases b <;>
    exact ⟨rfl, rfl, rfl, rfl, rfl, rfl, rfl, rfl⟩

/-! ### Reachable-marker invariant (C10) -/

/-- Every recorded intrusion marker carries a concrete binary value. -/
def markersBinary (w : MainWindow) : Prop :=
  ∀ p ∈ w.canvas.intrusion_times, p.2 = NVal.num 0 ∨ p.2 = NVal.num 1

/-- The window invariant: the cell invariant plus binary-valued markers. -/
def WInv (w : MainWindow) : Prop := cellInv w.sim ∧ markersBinary w

theorem markersBinary_append (w : MainWindow) (c : TimelineCanvas)
    (h : markersBinary w) (hc : c.intrusion_times = w.canvas.intrusion_times) :
    markersBinary { w with canvas := c } := by
  intro p hp
  rw [markersBinary]  at h
  exact h p (by rw [← hc]; exact hp)

/-- `on_measure` on a collapsed cell: label, log and one sample with the
stored value; the model is unchanged. -/
theorem on_measure_of_collapsed (src : RandSrc) (t : TimeVal) (w : MainWindow)
    (v : Outcome) (hc : w.sim.model.collapsed = true)
    (hv : w.sim.model.collapsed_value = some v) :
    on_measure src t w = some
      { w with
          state_label := .collapsedTo v
          log := w.log ++ [LogEvent.measurementPerformed v]
          canvas := w.canvas.append t (NVal.num (intOutcome v)) } := by
  simp [on_measure, measureS, hc, hv]

/-- `on_measure` on a fresh cell: collapse to the drawn value, label, log,
one sample. -/
theorem on_measure_of_fresh (src : RandSrc) (t : TimeVal) (w : MainWindow)
    (hc : w.sim.model.collapsed = false) :
    on_measure src t w = some
      { w with
          sim := { model := { w.sim.model with
                              collapsed := true
                              collapsed_value := some (src.outcomes w.sim.oIdx) }
                   oIdx := w.sim.oIdx + 1
                   sIdx := w.sim.sIdx }
          state_label := .collapsedTo (src.outcomes w.sim.oIdx)
          log := w.log ++ [LogEvent.measurementPerformed (src.outcomes w.sim.oIdx)]
          canvas := w.canvas.append t
            (NVal.num (intOutcome (src.outcomes w.sim.oIdx))) } := by
  simp [on_measure, measureS, hc]

/-- `_ui_tick` on a collapsed cell appends the collapsed value. -/
theorem ui_tick_of_collapsed (t : TimeVal) (w : MainWindow)
    (v : Outcome) (hc : w.sim.model.collapsed = true)
    (hv : w.sim.model.collapsed_value = some v) :
    ui_tick t w = some
      { w with canvas := w.canvas.append t (NVal.num (intOutcome v)) } := by
  simp [ui_tick, hc, hv]

/-- `_ui_tick` on a fresh cell appends the unknown sentinel. -/
theorem ui_tick_of_fresh (t : TimeVal) (w : MainWindow)
    (hc : w.sim.model.collapsed = false) :
    ui_tick t w = some { w with canvas := w.canvas.append t NVal.nan } := by
  simp [ui_tick, hc]

/-- One window event preserves the window invariant. -/
theorem WInv_stepW (src : RandSrc) (op : WOp) (w w' : MainWindow)
    (hs : stepW src op w = some w') (h : WInv w) : WInv w' := by
  obtain ⟨h1, h2⟩ := h
  cases op with
  | measure t =>
      by_cases hc : w.sim.model.collapsed
      · have hv : ∃ v, w.sim.model.collapsed_value = some v := by
          rw [cellInv, hc] at h1
          exact Option.isSome_iff_exists.mp h1
        obtain ⟨v, hv⟩ := hv
        rw [stepW, on_measure_of_collapsed src t w v hc hv, Option.some.injEq] at hs
        subst hs
        exact ⟨h1, fun p hp => h2 p hp⟩
      · have hc' : w.sim.model.collapsed = false := by simpa using hc
        rw [stepW, on_measure_of_fresh src t w hc', Option.some.injEq] at hs
        subst hs
        exact ⟨rfl, fun p hp => h2 p hp⟩
  | intrude t =>
      by_cases hc : w.sim.model.collapsed
      · have hv : ∃ v, w.sim.model.collapsed_value = some v := by
          rw [cellInv, hc] at h1
          exact Option.isSome_iff_exists.mp h1
        obtain ⟨v, hv⟩ := hv
        rw [stepW, on_intrusion_of_collapsed src t w v hc hv, Option.some.injEq] at hs
        subst hs
        refine ⟨h1, fun p hp => ?_⟩
        rcases List.mem_append.mp hp with hp | hp
        · exact h2 p hp
        · rcases List.mem_singleton.mp hp with rfl
          cases v <;> simp [intOutcome]
      · have hc' : w.sim.model.collapsed = false := by simpa using hc
        rw [stepW, on_intrusion_of_fresh src t w hc', Option.some.injEq] at hs
        subst hs
        refine ⟨rfl, fun p hp => ?_⟩
        simp only [TimelineCanvas.append, TimelineCanvas.mark_intrusion] at hp
        rcases List.mem_append.mp hp with hp | hp
        · exact h2 p hp
        · rcases List.mem_singleton.mp hp with rfl
          cases src.outcomes w.sim.oIdx <;> simp [intOutcome]
  | resetW t =>
      rw [stepW, Option.some.injEq] at hs
      subst hs
      refine ⟨rfl, fun p hp => ?_⟩
      simp only [on_reset, TimelineCanvas.append, TimelineCanvas.clear] at hp
      exact absurd hp (List.not_mem_nil p)
  | tick t =>
      by_cases hc : w.sim.model.collapsed
      · have hv : ∃ v, w.sim.model.collapsed_value = some v := by
          rw [cellInv, hc] at h1
          exact Option.isSome_iff_exists.mp h1
        obtain ⟨v, hv⟩ := hv
        rw [stepW, ui_tick_of_collapsed t w v hc hv, Option.some.injEq] at hs
        subst hs
        exact ⟨h1, fun p hp => h2 p hp⟩
      · have hc' : w.sim.model.collapsed = false := by simpa using hc
        rw [stepW, ui_tick_of_fresh t w hc', Option.some.injEq] at hs
        subst hs
        exact ⟨h1, fun p hp => h2 p hp⟩
  | autoChanged b =>
      rw [stepW, Option.some.injEq] at hs
      subst hs
      cases b with
      | true => exact ⟨h1, fun p hp => h2 p hp⟩
      | false => exact ⟨h1, fun p hp => h2 p hp⟩
  | setInterval v =>
      rw [stepW, Option.some.injEq] at hs
      subst hs
      exact ⟨h1, fun p hp => h2 p hp⟩

/-- A run of window events preserves the window invariant. -/
theorem WInv_runW (src : RandSrc) (ops : List WOp) (w w' : MainWindow)
    (hs : runW src ops w = some w') (h : WInv w) : WInv w' := by
  induction ops generalizing w with
  | nil =>
      rw [runW, Option.some.injEq] at hs
      subst hs
      exact h
  | cons op rest ih =>
      rw [runW] at hs
      cases hst : stepW src op w with
      | none => rw [hst] at hs; exact absurd hs (by simp)
      | some w1 =>
          rw [hst] at hs
          exact ih w1 hs (WInv_stepW src op w w1 hst h)

/-- The freshly constructed window satisfies the invariant. -/
theorem WInv_initW (src : RandSrc) : WInv (initW src) := by
  refine ⟨rfl, fun p hp => ?_⟩
  simp only [initW, TimelineCanvas.append, emptyCanvas, TimelineCanvas.clear] at hp
  exact absurd hp (List.not_mem_nil p)

/-- C10.  In every window state reachable from startup by any sequence of
events, every recorded intrusion marker carries a concrete binary value
(0 or 1), never the unknown sentinel: both branches of `on_intrusion`
record `int(outcome)` of a real outcome. -/
theorem C10_markers_always_binary (src : RandSrc) (ops : List WOp) (w' : MainWindow)
    (hs : runW src ops (initW src) = some w') :
    ∀ p ∈ w'.canvas.intrusion_times, p.2 = NVal.num 0 ∨ p.2 = NVal.num 1 :=
  (WInv_runW src ops (initW src) w' hs (WInv_initW src)).2

/-- Witness for C10: a concrete three-event run (intrude, tick, intrude)
whose resulting markers are checked to be binary. -/
theorem C10_markers_always_binary_witness :
    ∃ w', runW srcA [WOp.intrude 3, WOp.tick 4, WOp.intrude 5] (initW srcA) = some w' ∧
      ∀ p ∈ w'.canvas.intrusion_times, p.2 = NVal.num 0 ∨ p.2 = NVal.num 1 := by
  cases hs : runW srcA [WOp.intrude 3, WOp.tick 4, WOp.intrude 5] (initW srcA) with
  | none => exact absurd hs (by decide)
  | some w' => exact ⟨w', rfl, C10_markers_always_binary srcA _ w' hs⟩

end QuantumHoneypot
